import Mathlib

/-!
Shallow embedding of the Reference-Scanner backend core
(`src/backend/services/url_checker.py`, `src/backend/services/reference_linker.py`,
and the status aggregation in `src/backend/main.py`), with theorems settling the
spec claims about it.

Network transports are modelled as oracles (functions from method/attempt number
to an abstract response); everything else is transcribed from the Python source.
-/

namespace RefScanner

/-- The four per-URL statuses produced by `URLChecker.check_url`
("Working", "Not Working", "Timeout", "Broken"). -/
inductive UrlStatus where
  | working
  | notWorking
  | timeout
  | broken
deriving DecidableEq, Repr

/-- Outcome of one HTTP probe (`_request` in `url_checker.py`): a timeout
(`requests.exceptions.Timeout` → "Timeout"), any other request-level failure
(`requests.exceptions.RequestException` → `None`), or a numeric status code. -/
inductive ProbeResult where
  | timeout
  | err
  | code (n : Nat)
deriving DecidableEq, Repr

/-- The two probe methods used by `check_url`: the lightweight HEAD probe and
the heavy GET probe. -/
inductive ProbeMethod where
  | head
  | get
deriving DecidableEq, Repr

/-- URL normalization from `check_url` (url_checker.py lines 56-62): remove
spaces, newlines, carriage returns and tabs, strip, and prepend `https://`
when no `http://`/`https://` scheme prefix is present. -/
def normalize_url (url : String) : String :=
  let u := ((((url.replace (" ") "").replace ("\n") "").replace ("\r") "").replace ("\t") "").trim
  if u.startsWith ("http://") || u.startsWith ("https://") then u else ("https://") ++ u

/-- The final status-code classification of `check_url`
(url_checker.py lines 76-83): 401/403/405/429 → Working; 2xx/3xx → Working;
other 4xx → Broken; everything else → Not Working. -/
def classify_code (s : Nat) : UrlStatus :=
  if s = 401 ∨ s = 403 ∨ s = 405 ∨ s = 429 then .working
  else if 200 ≤ s ∧ s < 400 then .working
  else if 400 ≤ s ∧ s < 500 then .broken
  else .notWorking

/-- Whether `check_url` falls back to the heavy GET probe after the HEAD probe
(url_checker.py line 69): `status_code is None or status_code >= 400`. -/
def needs_fallback : ProbeResult → Bool
  | .timeout => false
  | .err => true
  | .code c => 400 ≤ c

/-- What `check_url` does with the outcome of the GET fallback
(url_checker.py lines 70-83): Timeout → Timeout, `None` → Broken,
a numeric code → `classify_code`. -/
def fallback_result : ProbeResult → UrlStatus
  | .timeout => .timeout
  | .err => .broken
  | .code c => classify_code c

/-- `URLChecker.check_url` over an abstract transport: the transport maps the
normalized URL and probe method to a probe outcome.  Transcribed from
url_checker.py lines 55-83: normalize, HEAD probe, Timeout short-circuit,
GET fallback when the HEAD probe errored or returned ≥ 400, then the shared
status-code classification. -/
def check_url (transport : String → ProbeMethod → ProbeResult) (url : String) :
    UrlStatus :=
  let u := normalize_url url
  match transport u .head with
  | .timeout => .timeout
  | .err => fallback_result (transport u .get)
  | .code c =>
      if 400 ≤ c then fallback_result (transport u .get)
      else classify_code c

/-- `check_url` including the outer `except Exception` handler
(url_checker.py lines 85-87): an unexpected local error anywhere in the body
is caught and mapped to "Broken".  `localError` models such an exception. -/
def check_url_full (localError : Bool)
    (transport : String → ProbeMethod → ProbeResult) (url : String) : UrlStatus :=
  if localError then .broken else check_url transport url

/-- The final probe outcome that `check_url` classifies, after the GET
fallback has (or has not) replaced the HEAD outcome. -/
def final_result (transport : String → ProbeMethod → ProbeResult) (url : String) :
    ProbeResult :=
  let u := normalize_url url
  match transport u .head with
  | .timeout => .timeout
  | .err => transport u .get
  | .code c => if 400 ≤ c then transport u .get else .code c

/-- Position of each status in `PRIORITY = ["Broken", "Timeout", "Not Working",
"Working"]` (main.py line 206); a smaller index is more severe. -/
def priority_index : UrlStatus → Nat
  | .broken => 0
  | .timeout => 1
  | .notWorking => 2
  | .working => 3

/-- Sort key relation used by `sorted(statuses, key=lambda s: PRIORITY.index(s))`. -/
def priority_le (a b : UrlStatus) : Prop := priority_index a ≤ priority_index b

instance : DecidableRel priority_le :=
  fun a b => inferInstanceAs (Decidable (priority_index a ≤ priority_index b))

instance : IsTotal UrlStatus priority_le := ⟨fun _ _ => Nat.le_total _ _⟩

instance : IsTrans UrlStatus priority_le := ⟨fun _ _ _ => Nat.le_trans⟩

/-- Aggregate statuses produced in `upload_pdf` (main.py lines 254-257): one of
the four URL statuses, or "Unknown" when the reference has no URLs. -/
inductive OverallStatus where
  | st (s : UrlStatus)
  | unknown
deriving DecidableEq, Repr

/-- The Python expression `sorted(statuses, key=lambda s: PRIORITY.index(s))[0]` with the
empty-list guard (main.py lines 254-257), using a stable insertion sort like
`sorted`: the overall status is the head of the sorted list, or Unknown when
there are no statuses. -/
def overall_status (statuses : List UrlStatus) : OverallStatus :=
  match statuses.insertionSort priority_le with
  | [] => .unknown
  | s :: _ => .st s

/-- One entry of the `url_details` list of a reference: a `{"url": ..., "source": ...}`
dict appended by `_append_url`. -/
structure UrlDetail where
  url : String
  source : String
deriving DecidableEq, Repr, Inhabited

/-- A reference record as handled by `ReferenceLinker` (a Python dict):
the `original_reference` text (with `""` for a missing key, matching every
`ref.get` use in the source), and the `urls` / `url_details` fields, where
`none` models an absent key before `setdefault` runs. -/
structure Ref where
  original_reference : String
  urls : Option (List String)
  url_details : Option (List UrlDetail)
deriving DecidableEq, Repr, Inhabited

/-- `ReferenceLinker._append_url` (reference_linker.py lines 224-233): skip an
empty URL, otherwise `setdefault` both lists, drop an exact duplicate, and
append the URL together with a parallel `{url, source}` detail. -/
def append_url (ref : Ref) (url : String) (source : String) : Ref :=
  if url = "" then ref
  else
    let urls := ref.urls.getD []
    let details := ref.url_details.getD []
    if url ∈ urls then
      { ref with urls := some urls, url_details := some details }
    else
      { ref with urls := some (urls ++ [url]),
                 url_details := some (details ++ [⟨url, source⟩]) }

/-- ASCII whitespace matched by the regex class `\s`. -/
def is_space_char (c : Char) : Bool :=
  c == ' ' || c == '\t' || c == '\n' || c == '\r' || c == '\x0b' || c == '\x0c'

/-- Identifier characters of the regex class `[a-zA-Z0-9./\-]` in the arXiv
pattern of `_extract_arxiv_links`. -/
def is_ident_char (c : Char) : Bool :=
  c.isAlphanum || c == '.' || c == '/' || c == '-'

/-- Match of the regex `arXiv:\s*([a-zA-Z0-9./\-]+)` (with `re.IGNORECASE`)
anchored at the head of the character list: on success, return the captured
identifier characters and the input remaining after the match. -/
def arxiv_match_here (cs : List Char) : Option (List Char × List Char) :=
  if (cs.take 6).map Char.toLower = "arxiv:".toList then
    let afterWs := (cs.drop 6).dropWhile is_space_char
    let ident := afterWs.takeWhile is_ident_char
    if ident.isEmpty then none
    else some (ident, afterWs.dropWhile is_ident_char)
  else none

/-- Left-to-right scan of `re.findall` for the arXiv pattern, taking
non-overlapping matches and resuming after each match; `fuel` bounds the
recursion and equals the input length at the top-level call, which suffices
because every step consumes at least one character. -/
def arxiv_find_all_fuel : Nat → List Char → List (List Char)
  | 0, _ => []
  | _, [] => []
  | fuel + 1, c :: rest =>
      match arxiv_match_here (c :: rest) with
      | some (ident, remaining) => ident :: arxiv_find_all_fuel fuel remaining
      | none => arxiv_find_all_fuel fuel rest

/-- All captured groups of `re.findall(r"arXiv:\s*([a-zA-Z0-9./\-]+)", text, re.IGNORECASE)`. -/
def arxiv_find_all (cs : List Char) : List (List Char) :=
  arxiv_find_all_fuel cs.length cs

/-- The Python method `str.strip()` on a character list (both ends). -/
def py_strip (cs : List Char) : List Char :=
  ((cs.dropWhile is_space_char).reverse.dropWhile is_space_char).reverse

/-- The Python method `str.rstrip(".,;:")` on a character list. -/
def rstrip_punct (cs : List Char) : List Char :=
  (cs.reverse.dropWhile (fun c => c == '.' || c == ',' || c == ';' || c == ':')).reverse

/-- Turn one regex capture into a canonical arXiv link, per the loop body of
`_extract_arxiv_links` (lines 77-80): strip, strip trailing `.,;:`, skip an
identifier that became empty, else build `https://arxiv.org/abs/{identifier}`. -/
def canonical_arxiv (m : List Char) : Option String :=
  let ident := rstrip_punct (py_strip m)
  if ident.isEmpty then none
  else some ("https://arxiv.org/abs/" ++ String.mk ident)

/-- `ReferenceLinker._extract_arxiv_links` (reference_linker.py lines 67-82). -/
def extract_arxiv_links (text : String) : List String :=
  if text = "" then []
  else (arxiv_find_all text.toList).filterMap canonical_arxiv

/-- `ReferenceLinker._process_reference` (reference_linker.py lines 138-165)
over oracles for the two network strategies: `crossref` is the candidate
`_search_crossref` would return for this reference, `serp` the candidate
`_search_serpapi` would return; `enable_search` and `serpapi_keys` come from
the configuration of the linker. -/
def process_reference (enable_search : Bool) (serpapi_keys : List String)
    (crossref : Option String) (serp : Option String) (ref : Ref) : Ref :=
  let r0 : Ref := { ref with urls := some (ref.urls.getD []),
                             url_details := some (ref.url_details.getD []) }
  let r1 :=
    if (r0.urls.getD []).isEmpty then
      (extract_arxiv_links r0.original_reference).foldl
        (fun r u => append_url r u ("research")) r0
    else r0
  let r2 :=
    if (r1.urls.getD []).isEmpty && enable_search && !(r1.original_reference == "") then
      match crossref with
      | some c => append_url r1 c ("suggested")
      | none => r1
    else r1
  if (r2.urls.getD []).isEmpty && enable_search && !(r2.original_reference == "")
      && !serpapi_keys.isEmpty then
    match serp with
    | some c => append_url r2 c ("suggested")
    | none => r2
  else r2

/-- One Crossref item as read by `_search_crossref` (lines 104-119): the
`title` list and the possibly missing `DOI` and `URL` fields, with `""`
modelling a missing or empty (falsy) field. -/
structure CrItem where
  title : List String
  doi : String
  url : String
deriving DecidableEq, Repr

/-- Outcome of one Crossref query attempt: a request-level failure
(`requests.RequestException`, which also covers `raise_for_status`), an
unparseable body (`ValueError` from `.json()`), or a parsed item list. -/
inductive CrossrefResp where
  | netErr
  | badJson
  | ok (items : List CrItem)
deriving DecidableEq, Repr

/-- Candidate scan of `_search_crossref` over parsed items (lines 104-121):
the first item whose first title is non-empty and scores at least
`TITLE_THRESHOLD = 60` against the reference text wins; a DOI link wins over
the raw URL field; an item with neither is skipped; no match gives `none`. -/
def pick_crossref (score : String → Nat) (items : List CrItem) : Option String :=
  items.findSome? fun item =>
    let title := item.title.headD ("")
    if title = "" then none
    else if score title < 60 then none
    else if item.doi ≠ "" then some ("https://doi.org/" ++ item.doi)
    else if item.url ≠ "" then some item.url
    else none

/-- Retry loop of `_search_crossref` (lines 93-136) over an attempt oracle,
with `fuel` attempts remaining (`range(3)` gives 3) and `a` the current
attempt number: a parsed response returns its scan result at once (an empty
scan is a final "no candidate", not a retry), a request-level failure moves to
the next attempt, a parse failure breaks out of the loop, and exhausting the
attempts yields `none`. -/
def crossref_attempts (score : String → Nat) (resps : Nat → CrossrefResp) :
    Nat → Nat → Option String
  | 0, _ => none
  | fuel + 1, a =>
      match resps a with
      | .ok items => pick_crossref score items
      | .badJson => none
      | .netErr => crossref_attempts score resps fuel (a + 1)

/-- `ReferenceLinker._search_crossref` with its three attempts. -/
def search_crossref (score : String → Nat) (resps : Nat → CrossrefResp) :
    Option String :=
  crossref_attempts score resps 3 0

/-- One organic result as read by `_search_serpapi` (lines 190-199), with `""`
modelling a missing or empty (falsy) title or link. -/
structure SerpResult where
  title : String
  link : String
deriving DecidableEq, Repr

/-- Outcome of one SerpAPI query attempt. -/
inductive SerpResp where
  | netErr
  | badJson
  | ok (results : List SerpResult)
deriving DecidableEq, Repr

/-- Result scan of `_search_serpapi` (lines 190-199): the first organic result
with a non-empty title and link whose title scores at least the threshold. -/
def pick_serpapi (score : String → Nat) (results : List SerpResult) : Option String :=
  results.findSome? fun r =>
    if r.title = "" then none
    else if r.link = "" then none
    else if 60 ≤ score r.title then some r.link
    else none

/-- `ReferenceLinker._next_serpapi_key` (lines 209-215) acting on the cursor
value `i`: the drawn key (`none` only for an empty pool) and the advanced
cursor `(i + 1) % len(keys)`. -/
def next_serpapi_key (keys : List String) (i : Nat) : Option String × Nat :=
  if keys.isEmpty then (none, i)
  else (some (keys.getD i ("")), (i + 1) % keys.length)

/-- Sequence of `n` sequential draws from the pool starting at cursor `i`. -/
def draw_keys (keys : List String) (i : Nat) : Nat → List (Option String)
  | 0 => []
  | n + 1 =>
      let d := next_serpapi_key keys i
      d.1 :: draw_keys keys d.2 n

/-- Attempt loop of `_search_serpapi` (lines 171-207): up to `fuel` attempts,
each drawing the next key from cursor `i` and consulting the response oracle
at attempt number `a`; a scored hit returns immediately, a parse failure
breaks, and a request-level failure or a fruitless result list moves on to the
next attempt (hence the next key).  Also returns the keys drawn, in order. -/
def serpapi_loop (score : String → Nat) (keys : List String)
    (resps : Nat → SerpResp) : Nat → Nat → Nat → Option String × List String
  | 0, _, _ => (none, [])
  | fuel + 1, i, a =>
      match next_serpapi_key keys i with
      | (none, _) => (none, [])
      | (some k, i2) =>
          match resps a with
          | .badJson => (none, [k])
          | .netErr =>
              let r := serpapi_loop score keys resps fuel i2 (a + 1)
              (r.1, k :: r.2)
          | .ok results =>
              match pick_serpapi score results with
              | some link => (some link, [k])
              | none =>
                  let r := serpapi_loop score keys resps fuel i2 (a + 1)
                  (r.1, k :: r.2)

/-- `ReferenceLinker._search_serpapi` (lines 167-207): `none` for an empty
pool, otherwise at most `min(pool size, 5)` attempts from cursor `i`; the
second component is the list of keys drawn. -/
def search_serpapi (score : String → Nat) (keys : List String)
    (resps : Nat → SerpResp) (i : Nat) : Option String × List String :=
  if keys.isEmpty then (none, [])
  else serpapi_loop score keys resps (min keys.length 5) i 0

/-- Per-record worker outcome in `ReferenceLinker.enrich` (lines 57-63): the
result of the worker when `_process_reference` returned normally (`results i =
some r`), or the original record `references[idx]` when it raised
(`results i = none`). -/
def enrich_slot (references : List Ref) (results : Nat → Option Ref) (i : Nat) : Ref :=
  (results i).getD (references.getD i default)

/-- `ReferenceLinker.enrich` (reference_linker.py lines 45-65) with the future
completion order made explicit: `enriched = [None] * len(references)`, then for
each index in completion order `order`, slot `idx` receives the outcome of that
record. -/
def enrich_in_order (references : List Ref) (results : Nat → Option Ref)
    (order : List Nat) : List (Option Ref) :=
  order.foldl (fun acc i => acc.set i (some (enrich_slot references results i)))
    (List.replicate references.length none)

/-- Status computation of `upload_pdf` for one reference (main.py lines
249-257): check every URL of the record and aggregate by `PRIORITY`, with
"Unknown" for a record with no URLs. -/
def reference_overall (checker : String → UrlStatus) (ref : Ref) : OverallStatus :=
  overall_status ((ref.urls.getD []).map checker)

/-- Helper: `check_url` is the code classification of the final probe outcome
after the fallback step. -/
theorem check_url_eq_final (t : String → ProbeMethod → ProbeResult) (url : String) :
    check_url t url = fallback_result (final_result t url) := by
  simp only [check_url, final_result]
  cases t (normalize_url url) .head with
  | timeout => rfl
  | err => rfl
  | code c =>
      by_cases h : 400 ≤ c
      · simp [h]
      · simp [h, fallback_result]

/-- Claim C1, counterexample to the claim as stated: when the heavy GET
fallback also fails with a non-timeout request error, `check_url` returns
Broken, not the NotWorking the claim announces. -/
theorem claim1_counterexample :
    check_url (fun _ _ => ProbeResult.err) ("https://example.com") = UrlStatus.broken ∧
    UrlStatus.broken ≠ UrlStatus.notWorking :=
  ⟨rfl, by decide⟩

/-- Claim C1 (amended): `check_url` classifies the final numeric result after
fallback: codes in 401/403/405/429 or 2xx/3xx yield Working; any other 4xx
yields Broken; anything else (a 5xx code or any other remaining code) yields
NotWorking; a timeout anywhere in the sequence yields Timeout; the heavy
fallback failing with a non-timeout error yields Broken (amendment: Broken,
not NotWorking); an unrecoverable local error yields Broken. -/
theorem claim1_classification (t : String → ProbeMethod → ProbeResult)
    (url : String) (e : Bool) :
    (e = true → check_url_full e t url = .broken) ∧
    (e = false → check_url_full e t url = fallback_result (final_result t url)) ∧
    (∀ c, ((c = 401 ∨ c = 403 ∨ c = 405 ∨ c = 429) ∨ (200 ≤ c ∧ c < 400)) →
        fallback_result (.code c) = .working) ∧
    (∀ c, 400 ≤ c → c < 500 → ¬(c = 401 ∨ c = 403 ∨ c = 405 ∨ c = 429) →
        fallback_result (.code c) = .broken) ∧
    (∀ c, ¬(c = 401 ∨ c = 403 ∨ c = 405 ∨ c = 429) → ¬(200 ≤ c ∧ c < 400) →
        ¬(400 ≤ c ∧ c < 500) → fallback_result (.code c) = .notWorking) ∧
    (fallback_result .timeout = .timeout) ∧
    (fallback_result .err = .broken) := by
  refine ⟨?_, ?_, ?_, ?_, ?_, rfl, rfl⟩
  · intro h; simp [check_url_full, h]
  · intro h; simp [check_url_full, h, check_url_eq_final]
  · intro c hc
    show classify_code c = .working
    rcases hc with h | h
    · simp only [classify_code]; rw [if_pos h]
    · simp only [classify_code]
      rw [if_neg (by omega), if_pos h]
  · intro c h1 h2 hn
    show classify_code c = .broken
    simp only [classify_code]
    rw [if_neg hn, if_neg (by omega), if_pos ⟨h1, h2⟩]
  · intro c h1 h2 h3
    show classify_code c = .notWorking
    simp only [classify_code]
    rw [if_neg h1, if_neg h2, if_neg h3]

/-- Witness for C1: concrete instantiations discharging each hypothesis. -/
theorem claim1_witness :
    check_url_full false (fun _ _ => ProbeResult.code 503) ("https://example.com") =
      fallback_result
        (final_result (fun _ _ => ProbeResult.code 503) ("https://example.com")) ∧
    fallback_result (ProbeResult.code 503) = UrlStatus.notWorking ∧
    fallback_result (ProbeResult.code 404) = UrlStatus.broken ∧
    fallback_result (ProbeResult.code 301) = UrlStatus.working ∧
    check_url_full true (fun _ _ => ProbeResult.code 200) ("https://example.com") =
      UrlStatus.broken :=
  ⟨(claim1_classification (fun _ _ => ProbeResult.code 503) ("https://example.com")
      false).2.1 rfl,
   (claim1_classification (fun _ _ => ProbeResult.code 503) ("https://example.com")
      false).2.2.2.2.1 503 (by decide) (by decide) (by decide),
   (claim1_classification (fun _ _ => ProbeResult.code 503) ("https://example.com")
      false).2.2.2.1 404 (by decide) (by decide) (by decide),
   (claim1_classification (fun _ _ => ProbeResult.code 503) ("https://example.com")
      false).2.2.1 301 (Or.inr (by decide)),
   (claim1_classification (fun _ _ => ProbeResult.code 200) ("https://example.com")
      true).1 rfl⟩

/-- Claim C7: a 2xx lightweight probe yields Working with the heavy probe never
consulted; the heavy probe is consulted exactly when the lightweight probe
fails with a connection error or returns a status of 400 or greater; a
lightweight 404 followed by a heavy 404 yields Broken; a timeout in either
probe short-circuits the whole check to Timeout. -/
theorem claim7_two_tier (t t2 : String → ProbeMethod → ProbeResult) (url : String) :
    (∀ c, t (normalize_url url) .head = .code c → 200 ≤ c → c < 300 →
        check_url t url = .working) ∧
    (needs_fallback (t (normalize_url url) .head) = true ↔
        t (normalize_url url) .head = .err ∨
          ∃ c, t (normalize_url url) .head = .code c ∧ 400 ≤ c) ∧
    (needs_fallback (t (normalize_url url) .head) = false →
        t2 (normalize_url url) .head = t (normalize_url url) .head →
        check_url t2 url = check_url t url) ∧
    (t (normalize_url url) .head = .timeout → check_url t url = .timeout) ∧
    (needs_fallback (t (normalize_url url) .head) = true →
        t (normalize_url url) .get = .timeout → check_url t url = .timeout) ∧
    (t (normalize_url url) .head = .code 404 → t (normalize_url url) .get = .code 404 →
        check_url t url = .broken) := by
  refine ⟨?_, ?_, ?_, ?_, ?_, ?_⟩
  · intro c hh h2 h3
    simp only [check_url, hh]
    rw [if_neg (by omega)]
    show classify_code c = .working
    simp only [classify_code]
    rw [if_neg (by omega), if_pos (by omega)]
  · cases hh : t (normalize_url url) .head with
    | timeout => simp [needs_fallback]
    | err => simp [needs_fallback]
    | code c =>
        simp only [needs_fallback]
        constructor
        · intro h
          exact Or.inr ⟨c, rfl, of_decide_eq_true h⟩
        · rintro (h | ⟨c2, hc2, hge⟩)
          · cases h
          · cases hc2; exact decide_eq_true hge
  · intro hnf heq
    simp only [check_url]
    rw [heq]
    cases hh : t (normalize_url url) .head with
    | timeout => rfl
    | err => rw [hh] at hnf; simp [needs_fallback] at hnf
    | code c =>
        rw [hh] at hnf
        simp only [needs_fallback] at hnf
        have hlt : ¬ 400 ≤ c := of_decide_eq_false hnf
        simp [hlt]
  · intro hh; simp [check_url, hh]
  · intro hnf hg
    cases hh : t (normalize_url url) .head with
    | timeout => simp [check_url, hh]
    | err => simp [check_url, hh, hg, fallback_result]
    | code c =>
        rw [hh] at hnf
        simp only [needs_fallback] at hnf
        have hge : 400 ≤ c := of_decide_eq_true hnf
        simp [check_url, hh, hge, hg, fallback_result]
  · intro hh hg
    simp only [check_url, hh]
    rw [if_pos (by omega), hg]
    show classify_code 404 = .broken
    decide

/-- Witness for C7: a concrete transport discharging each hypothesis. -/
theorem claim7_witness :
    check_url (fun _ m => if m == ProbeMethod.head then ProbeResult.code 200
      else ProbeResult.code 500) ("example.com") = UrlStatus.working ∧
    check_url (fun _ _ => ProbeResult.code 404) ("example.com") = UrlStatus.broken ∧
    check_url (fun _ _ => ProbeResult.timeout) ("example.com") = UrlStatus.timeout :=
  ⟨(claim7_two_tier (fun _ m => if m == ProbeMethod.head then ProbeResult.code 200
        else ProbeResult.code 500) (fun _ _ => ProbeResult.code 404) ("example.com")).1
      200 rfl (by decide) (by decide),
   (claim7_two_tier (fun _ _ => ProbeResult.code 404) (fun _ _ => ProbeResult.code 404)
      "example.com").2.2.2.2.2 rfl rfl,
   (claim7_two_tier (fun _ _ => ProbeResult.timeout) (fun _ _ => ProbeResult.timeout)
      "example.com").2.2.2.1 rfl⟩

/-- Claim C10: `check_url` (with its outer exception handler) is total: it
returns exactly one of the four statuses for every input, and an unexpected
local error is mapped to Broken rather than propagated. -/
theorem claim10_total (e : Bool) (t : String → ProbeMethod → ProbeResult)
    (url : String) :
    (check_url_full e t url = .working ∨ check_url_full e t url = .notWorking ∨
      check_url_full e t url = .timeout ∨ check_url_full e t url = .broken) ∧
    (e = true → check_url_full e t url = .broken) := by
  constructor
  · cases h : check_url_full e t url <;> simp
  · intro h; simp [check_url_full, h]

/-- Witness for C10 at a concrete input. -/
theorem claim10_witness :
    check_url_full true (fun _ _ => ProbeResult.code 200) ("example.com") =
      UrlStatus.broken :=
  (claim10_total true (fun _ _ => ProbeResult.code 200) ("example.com")).2 rfl

/-- Helper: the aggregate is Unknown exactly for an empty status list. -/
theorem overall_status_eq_unknown_iff (l : List UrlStatus) :
    overall_status l = .unknown ↔ l = [] := by
  have hperm := List.perm_insertionSort priority_le l
  cases hs : l.insertionSort priority_le with
  | nil =>
      rw [hs] at hperm
      simp [overall_status, hs, hperm.symm.eq_nil]
  | cons a tl =>
      rw [hs] at hperm
      have hne : l ≠ [] := by
        intro h
        subst h
        exact (List.not_mem_nil a) (hperm.mem_iff.mp (List.mem_cons_self a tl))
      simp [overall_status, hs, hne]

/-- Helper: a non-Unknown aggregate is a member of the status list that
minimizes the `PRIORITY` index. -/
theorem overall_status_min (l : List UrlStatus) (s : UrlStatus)
    (h : overall_status l = .st s) :
    s ∈ l ∧ ∀ u ∈ l, priority_index s ≤ priority_index u := by
  have hperm := List.perm_insertionSort priority_le l
  have hsorted := List.sorted_insertionSort priority_le l
  cases hs : l.insertionSort priority_le with
  | nil =>
      have hu : overall_status l = .unknown := by simp [overall_status, hs]
      rw [hu] at h
      cases h
  | cons a tl =>
      have hval : overall_status l = .st a := by simp [overall_status, hs]
      have has : a = s := by
        have hq := hval.symm.trans h
        injection hq
      subst has
      rw [hs] at hperm hsorted
      obtain ⟨hhead, _⟩ := List.sorted_cons.mp hsorted
      constructor
      · exact hperm.mem_iff.mp (List.mem_cons_self a tl)
      · intro u hu
        rcases List.mem_cons.mp (hperm.mem_iff.mpr hu) with h2 | h2
        · subst h2; exact le_refl _
        · exact hhead u h2

/-- Helper: conversely, a member minimizing the `PRIORITY` index is the
aggregate. -/
theorem overall_status_of_min (l : List UrlStatus) (s : UrlStatus) (hs : s ∈ l)
    (hmin : ∀ u ∈ l, priority_index s ≤ priority_index u) :
    overall_status l = .st s := by
  cases h : overall_status l with
  | unknown =>
      rw [overall_status_eq_unknown_iff] at h
      subst h
      cases hs
  | st a =>
      obtain ⟨ha, hamin⟩ := overall_status_min l a h
      have h1 := hmin a ha
      have h2 := hamin s hs
      have heq : a = s := by
        cases a <;> cases s <;> simp_all [priority_index]
      rw [heq]

/-- Claim C3: the aggregate status is the most severe per-URL status under the
priority order Broken > Timeout > NotWorking > Working (severity is a smaller
`PRIORITY` index), with Unknown for a reference with no URLs; in particular
Working+Timeout aggregates to Timeout and Working+Broken+NotWorking aggregates
to Broken. -/
theorem claim3_aggregate (l : List UrlStatus) :
    (overall_status l = .unknown ↔ l = []) ∧
    (∀ s, overall_status l = .st s →
        s ∈ l ∧ ∀ u ∈ l, priority_index s ≤ priority_index u) ∧
    (∀ s, s ∈ l → (∀ u ∈ l, priority_index s ≤ priority_index u) →
        overall_status l = .st s) ∧
    overall_status [.working, .timeout] = .st .timeout ∧
    overall_status [.working, .broken, .notWorking] = .st .broken :=
  ⟨overall_status_eq_unknown_iff l, fun s h => overall_status_min l s h,
    fun s hs hmin => overall_status_of_min l s hs hmin, by decide, by decide⟩

/-- Witness for C3: concrete instantiations discharging each hypothesis. -/
theorem claim3_witness :
    overall_status ([] : List UrlStatus) = .unknown ∧
    UrlStatus.timeout ∈ [UrlStatus.working, UrlStatus.timeout] ∧
    overall_status [UrlStatus.working, UrlStatus.broken, UrlStatus.notWorking] =
      .st .broken :=
  ⟨(claim3_aggregate []).1.mpr rfl,
   ((claim3_aggregate [UrlStatus.working, UrlStatus.timeout]).2.1 .timeout
      (by decide)).1,
   (claim3_aggregate [UrlStatus.working, UrlStatus.broken, UrlStatus.notWorking]).2.2.1
      .broken (by decide) (by decide)⟩

/-- Helper: folding index writes over a list preserves the length. -/
theorem foldl_set_length {α : Type} (g : Nat → α) :
    ∀ (order : List Nat) (acc : List α),
      (order.foldl (fun acc2 j => acc2.set j (g j)) acc).length = acc.length
  | [], _ => rfl
  | j :: rest, acc => by
      rw [List.foldl_cons, foldl_set_length g rest, List.length_set]

/-- Helper: slot `i` after folding index writes over `order` holds `g i` when
`i` was written in bounds, else its original content. -/
theorem foldl_set_getElem {α : Type} (g : Nat → α) :
    ∀ (order : List Nat) (acc : List α) (i : Nat),
      (order.foldl (fun acc2 j => acc2.set j (g j)) acc)[i]? =
        if i ∈ order ∧ i < acc.length then some (g i) else acc[i]?
  | [], acc, i => by simp
  | j :: rest, acc, i => by
      rw [List.foldl_cons, foldl_set_getElem g rest, List.length_set,
        List.getElem?_set]
      by_cases h2 : i < acc.length
      · by_cases h3 : j = i
        · subst h3
          by_cases h1 : j ∈ rest <;> simp [h1, h2, List.mem_cons]
        · by_cases h1 : i ∈ rest <;> simp [h1, h2, h3, List.mem_cons, Ne.symm h3]
      · have hnone : acc[i]? = none := List.getElem?_eq_none (Nat.le_of_not_lt h2)
        by_cases h3 : j = i
        · subst h3
          by_cases h1 : j ∈ rest <;> simp [h1, h2, hnone]
        · by_cases h1 : i ∈ rest <;> simp [h1, h2, h3, hnone, List.mem_cons]

/-- Helper: for every completion order that is a permutation of the input
indices, `enrich` fills every slot with the outcome of its own record, in input
order. -/
theorem enrich_in_order_eq (references : List Ref) (results : Nat → Option Ref)
    (order : List Nat) (hperm : order.Perm (List.range references.length)) :
    enrich_in_order references results order =
      (List.range references.length).map
        (fun i => some (enrich_slot references results i)) := by
  apply List.ext_getElem?
  intro i
  unfold enrich_in_order
  rw [foldl_set_getElem, List.length_replicate]
  have hmem : i ∈ order ↔ i < references.length := by
    rw [hperm.mem_iff, List.mem_range]
  by_cases h : i < references.length
  · rw [if_pos ⟨hmem.mpr h, h⟩, List.getElem?_map]
    simp [List.getElem?_range, h]
  · rw [if_neg (by tauto), List.getElem?_replicate, if_neg h]
    symm
    apply List.getElem?_eq_none
    simpa using Nat.le_of_not_lt h

/-- Claim C5: for every input list of records and every completion order of the
bounded worker pool (any permutation of the input indices), the batch returns
exactly one outcome per input record, in input order. -/
theorem claim5_order_preserved (references : List Ref) (results : Nat → Option Ref)
    (order : List Nat) (hperm : order.Perm (List.range references.length)) :
    enrich_in_order references results order =
      (List.range references.length).map
        (fun i => some (enrich_slot references results i)) :=
  enrich_in_order_eq references results order hperm

/-- Witness for C5: two records completed in reversed order still come back in
input order. -/
theorem claim5_witness :
    enrich_in_order [⟨"a", none, none⟩, ⟨"b", none, none⟩] (fun _ => none) [1, 0] =
      (List.range 2).map
        (fun i => some (enrich_slot [⟨"a", none, none⟩, ⟨"b", none, none⟩]
          (fun _ => none) i)) :=
  claim5_order_preserved [⟨"a", none, none⟩, ⟨"b", none, none⟩] (fun _ => none)
    [1, 0] (by decide)

/-- Claim C2, counterexample to the claim as stated: a failing record whose
original already carries a URL is substituted unchanged, and `upload_pdf` then
computes its aggregate from those original URLs, so the aggregate is not
Unknown as the claim announces. -/
theorem claim2_counterexample :
    enrich_in_order [⟨"t", some ["https://example.com"], none⟩] (fun _ => none)
        [0] =
      [some ⟨"t", some ["https://example.com"], none⟩] ∧
    reference_overall (fun _ => .working)
        ⟨"t", some ["https://example.com"], none⟩ = .st .working ∧
    reference_overall (fun _ => .working)
        ⟨"t", some ["https://example.com"], none⟩ ≠ .unknown :=
  ⟨by decide, by decide, by decide⟩

/-- Claim C2 (amended): a record whose worker raises does not fail the batch:
its outcome is the original (unenriched) record as passed in; the aggregate
status later computed for that outcome is Unknown exactly when the original
record has no URLs (otherwise it is computed from the original URLs as usual);
and the outcome of every other record is unaffected, remaining the outcome of
its own worker. -/
theorem claim2_failure_isolated (checker : String → UrlStatus)
    (references : List Ref) (results : Nat → Option Ref) (order : List Nat)
    (i : Nat) (hperm : order.Perm (List.range references.length))
    (hi : i < references.length) (hfail : results i = none) :
    (enrich_in_order references results order)[i]? =
      some (some (references.getD i default)) ∧
    (reference_overall checker (references.getD i default) = .unknown ↔
      (references.getD i default).urls.getD [] = []) ∧
    (∀ j, j < references.length →
        (enrich_in_order references results order)[j]? =
          some (some (enrich_slot references results j))) := by
  rw [enrich_in_order_eq references results order hperm]
  refine ⟨?_, ?_, ?_⟩
  · rw [List.getElem?_map]
    simp only [List.getElem?_range, hi, if_pos]
    simp [enrich_slot, hfail]
  · rw [reference_overall, overall_status_eq_unknown_iff]
    constructor
    · intro h
      exact List.map_eq_nil_iff.mp h
    · intro h
      rw [h]
      rfl
  · intro j hj
    rw [List.getElem?_map]
    simp [List.getElem?_range, hj]

/-- Witness for C2: a concrete two-record batch where the first worker raises. -/
theorem claim2_witness :
    (enrich_in_order [⟨"x", none, none⟩, ⟨"y", some ["u"], some []⟩]
        (fun n => if n = 0 then none else some ⟨"y2", some ["u"], some []⟩)
        [1, 0])[0]? = some (some ⟨"x", none, none⟩) ∧
    (reference_overall (fun _ => .working) ⟨"x", none, none⟩ = .unknown ↔
      (Ref.mk ("x") none none).urls.getD [] = []) := by
  have h := claim2_failure_isolated (fun _ => .working)
    [⟨"x", none, none⟩, ⟨"y", some ["u"], some []⟩]
    (fun n => if n = 0 then none else some ⟨"y2", some ["u"], some []⟩)
    [1, 0] 0 (by decide) (by decide) rfl
  exact ⟨h.1, h.2.1⟩

/-- Claim C4: for a record whose `urls` list is non-empty on input,
`_process_reference` is the identity on `urls` and `url_details` (an absent
`url_details` key is merely normalized to the empty list by `setdefault`), and
no discovery strategy runs: the result does not depend on the search
configuration or on either search oracle. -/
theorem claim4_discover_noop (enable_search : Bool) (serpapi_keys : List String)
    (crossref serp : Option String) (ref : Ref) (us : List String)
    (hurls : ref.urls = some us) (hne : us ≠ []) :
    process_reference enable_search serpapi_keys crossref serp ref =
      { ref with url_details := some (ref.url_details.getD []) } ∧
    (process_reference enable_search serpapi_keys crossref serp ref).urls =
      ref.urls ∧
    (process_reference enable_search serpapi_keys crossref serp
        ref).url_details.getD [] = ref.url_details.getD [] ∧
    (∀ es2 keys2 cr2 sp2,
        process_reference enable_search serpapi_keys crossref serp ref =
          process_reference es2 keys2 cr2 sp2 ref) := by
  have hmain : ∀ (es : Bool) (keys : List String) (cr sp : Option String),
      process_reference es keys cr sp ref =
        { ref with url_details := some (ref.url_details.getD []) } := by
    intro es keys cr sp
    have hie : us.isEmpty = false := by
      cases us with
      | nil => exact absurd rfl hne
      | cons a tl => rfl
    simp [process_reference, hurls, hie]
  refine ⟨hmain _ _ _ _, ?_, ?_,
    fun es2 keys2 cr2 sp2 => (hmain _ _ _ _).trans (hmain _ _ _ _).symm⟩
  · rw [hmain _ _ _ _]
  · rw [hmain _ _ _ _]
    simp

/-- Witness for C4: a concrete record with a URL passes through unchanged. -/
theorem claim4_witness :
    process_reference true ["k"] (some ("c")) (some ("s"))
        ⟨"txt", some ["u1"], some [⟨"u1", "unknown"⟩]⟩ =
      ⟨"txt", some ["u1"], some [⟨"u1", "unknown"⟩]⟩ :=
  (claim4_discover_noop true ["k"] (some ("c")) (some ("s"))
    ⟨"txt", some ["u1"], some [⟨"u1", "unknown"⟩]⟩ ["u1"] rfl (by decide)).1

/-- Helper: the three-attempt Crossref loop, written out attempt by attempt. -/
theorem search_crossref_unfold (score : String → Nat) (r : Nat → CrossrefResp) :
    search_crossref score r =
      match r 0 with
      | .ok items => pick_crossref score items
      | .badJson => none
      | .netErr =>
          match r 1 with
          | .ok items => pick_crossref score items
          | .badJson => none
          | .netErr =>
              match r 2 with
              | .ok items => pick_crossref score items
              | .badJson => none
              | .netErr => none := rfl

/-- Claim C6: the Crossref search makes at most 3 attempts in total (its result
depends only on the first three responses); a parsed response — even one with
no acceptable candidate — ends the loop at once with its scan result, so an
empty success triggers no retry; only a request-level network failure moves to
the next attempt; a malformed (non-JSON) response aborts the loop immediately;
and exhausting all attempts on network failures yields `none` ("no
candidate"), never an error surfaced to the caller. -/
theorem claim6_crossref_retry (score : String → Nat)
    (resps resps2 : Nat → CrossrefResp) :
    ((∀ a, a < 3 → resps2 a = resps a) →
        search_crossref score resps2 = search_crossref score resps) ∧
    (∀ fuel a items, resps a = .ok items →
        crossref_attempts score resps (fuel + 1) a = pick_crossref score items) ∧
    (∀ fuel a, resps a = .badJson →
        crossref_attempts score resps (fuel + 1) a = none) ∧
    (∀ fuel a, resps a = .netErr →
        crossref_attempts score resps (fuel + 1) a =
          crossref_attempts score resps fuel (a + 1)) ∧
    ((∀ a, a < 3 → resps a = .netErr) → search_crossref score resps = none) := by
  refine ⟨?_, ?_, ?_, ?_, ?_⟩
  · intro h
    rw [search_crossref_unfold score resps2, search_crossref_unfold score resps,
      h 0 (by omega), h 1 (by omega), h 2 (by omega)]
  · intro fuel a items h
    simp [crossref_attempts, h]
  · intro fuel a h
    simp [crossref_attempts, h]
  · intro fuel a h
    simp [crossref_attempts, h]
  · intro h
    rw [search_crossref_unfold score resps,
      h 0 (by omega), h 1 (by omega), h 2 (by omega)]

/-- Witness for C6: concrete oracles discharging each hypothesis. -/
theorem claim6_witness :
    search_crossref (fun _ => 0) (fun _ => CrossrefResp.netErr) = none ∧
    crossref_attempts (fun _ => 0) (fun _ => CrossrefResp.badJson) 3 0 = none ∧
    crossref_attempts (fun _ => 0) (fun _ => CrossrefResp.ok []) 3 0 =
      pick_crossref (fun _ => 0) [] :=
  ⟨(claim6_crossref_retry (fun _ => 0) (fun _ => .netErr)
      (fun _ => .netErr)).2.2.2.2 (fun _ _ => rfl),
   (claim6_crossref_retry (fun _ => 0) (fun _ => .badJson)
      (fun _ => .badJson)).2.2.1 2 0 rfl,
   (claim6_crossref_retry (fun _ => 0) (fun _ => .ok [])
      (fun _ => .ok [])).2.1 2 0 [] rfl⟩

/-- Helper: the SerpAPI loop draws at most `fuel` keys, i.e. makes at most
`fuel` attempts. -/
theorem serpapi_loop_length (score : String → Nat) (keys : List String)
    (resps : Nat → SerpResp) :
    ∀ (fuel i a : Nat), (serpapi_loop score keys resps fuel i a).2.length ≤ fuel := by
  intro fuel
  induction fuel with
  | zero => intro i a; simp [serpapi_loop]
  | succ fuel ih =>
      intro i a
      simp only [serpapi_loop]
      cases hk : next_serpapi_key keys i with
      | mk k i2 =>
          cases k with
          | none => simp
          | some kk =>
              cases hr : resps a with
              | badJson => simp
              | netErr => simpa using Nat.succ_le_succ (ih i2 (a + 1))
              | ok results =>
                  cases hp : pick_serpapi score results with
                  | some link => simp [hp]
                  | none =>
                      simp only [hp]
                      simpa using Nat.succ_le_succ (ih i2 (a + 1))

/-- Helper: starting from an in-bounds cursor `i`, the `j`-th key the SerpAPI
loop draws is `keys[(i + j) % len]`: round-robin with wrapping, advancing on
every attempt (in particular after a request-level failure). -/
theorem serpapi_loop_keys (score : String → Nat) (keys : List String)
    (resps : Nat → SerpResp) :
    ∀ (fuel i a j : Nat), i < keys.length →
      j < (serpapi_loop score keys resps fuel i a).2.length →
      (serpapi_loop score keys resps fuel i a).2.getD j ("") =
        keys.getD ((i + j) % keys.length) ("") := by
  intro fuel
  induction fuel with
  | zero => intro i a j _ hj; simp [serpapi_loop] at hj
  | succ fuel ih =>
      intro i a j hi hj
      have hne : keys.isEmpty = false := by
        cases keys with
        | nil => simp at hi
        | cons x xs => rfl
      have hlen : 0 < keys.length := by
        cases keys with
        | nil => simp at hi
        | cons x xs => simp
      have hkey : next_serpapi_key keys i =
          (some (keys.getD i ("")), (i + 1) % keys.length) := by
        simp [next_serpapi_key, hne]
      have hmod : (i + 0) % keys.length = i := by
        rw [Nat.add_zero, Nat.mod_eq_of_lt hi]
      have hi2 : (i + 1) % keys.length < keys.length := Nat.mod_lt _ hlen
      have hstep : ∀ j2 : Nat,
          ((i + 1) % keys.length + j2) % keys.length =
            (i + (j2 + 1)) % keys.length := by
        intro j2
        rw [Nat.mod_add_mod]
        congr 1
        omega
      cases hr : resps a with
      | badJson =>
          simp only [serpapi_loop, hkey, hr] at hj ⊢
          have hj0 : j = 0 := by simp at hj; omega
          subst hj0
          rw [hmod]
          simp
      | netErr =>
          simp only [serpapi_loop, hkey, hr] at hj ⊢
          cases j with
          | zero =>
              rw [hmod]
              simp
          | succ j2 =>
              rw [List.getD_cons_succ]
              have hrec := ih ((i + 1) % keys.length) (a + 1) j2 hi2
                (by simpa using hj)
              rw [hrec, hstep j2]
      | ok results =>
          cases hp : pick_serpapi score results with
          | some link =>
              simp only [serpapi_loop, hkey, hr, hp] at hj ⊢
              have hj0 : j = 0 := by simp at hj; omega
              subst hj0
              rw [hmod]
              simp
          | none =>
              simp only [serpapi_loop, hkey, hr, hp] at hj ⊢
              cases j with
              | zero =>
                  rw [hmod]
                  simp
              | succ j2 =>
                  rw [List.getD_cons_succ]
                  have hrec := ih ((i + 1) % keys.length) (a + 1) j2 hi2
                    (by simpa using hj)
                  rw [hrec, hstep j2]

/-- Claim C8: credential draws are round-robin with wrapping — pool
`[k1,k2,k3]` yields draws `k1,k2,k3,k1,k2` — and `_search_serpapi` makes at
most `min(pool size, 5)` attempts, advancing to the next credential on every
attempt, in particular after a request-level error. -/
theorem claim8_rotation (score : String → Nat) (keys : List String)
    (resps : Nat → SerpResp) (i : Nat) (hi : i < keys.length) :
    draw_keys ["k1", "k2", "k3"] 0 5 =
      [some ("k1"), some ("k2"), some ("k3"), some ("k1"), some ("k2")] ∧
    (search_serpapi score keys resps i).2.length ≤ min keys.length 5 ∧
    (∀ j, j < (search_serpapi score keys resps i).2.length →
        (search_serpapi score keys resps i).2.getD j ("") =
          keys.getD ((i + j) % keys.length) ("")) := by
  have hne : keys.isEmpty = false := by
    cases keys with
    | nil => simp at hi
    | cons x xs => rfl
  refine ⟨by decide, ?_, ?_⟩
  · simp only [search_serpapi, hne, Bool.false_eq_true, if_false]
    exact serpapi_loop_length score keys resps (min keys.length 5) i 0
  · intro j hj
    simp only [search_serpapi, hne, Bool.false_eq_true, if_false] at hj ⊢
    exact serpapi_loop_keys score keys resps (min keys.length 5) i 0 j hi hj

/-- Witness for C8: the three-key pool rotating from cursor 0. -/
theorem claim8_witness :
    draw_keys ["k1", "k2", "k3"] 0 5 =
      [some ("k1"), some ("k2"), some ("k3"), some ("k1"), some ("k2")] ∧
    (search_serpapi (fun _ => 0) ["k1", "k2", "k3"] (fun _ => SerpResp.netErr)
        0).2.length ≤ min 3 5 :=
  ⟨(claim8_rotation (fun _ => 0) ["k1", "k2", "k3"] (fun _ => .netErr) 0
      (by decide)).1,
   (claim8_rotation (fun _ => 0) ["k1", "k2", "k3"] (fun _ => .netErr) 0
      (by decide)).2.1⟩

/-- Helper: every extracted arXiv link is a non-empty string. -/
theorem extract_arxiv_ne_empty (text : String) :
    ∀ u ∈ extract_arxiv_links text, u ≠ "" := by
  intro u hu
  simp only [extract_arxiv_links] at hu
  split at hu
  · cases hu
  · obtain ⟨m, _, hcanon⟩ := List.mem_filterMap.mp hu
    simp only [canonical_arxiv] at hcanon
    split at hcanon
    · cases hcanon
    · have hu2 := Option.some.inj hcanon
      subst hu2
      intro hemp
      have hlen := congrArg String.length hemp
      rw [String.length_append] at hlen
      have h22 : "https://arxiv.org/abs/".length = 22 := rfl
      rw [h22] at hlen
      simp at hlen

/-- Helper: appending a URL never empties a non-empty `urls` list. -/
theorem append_url_urls_ne (r : Ref) (u src : String)
    (h : r.urls.getD [] ≠ []) : (append_url r u src).urls.getD [] ≠ [] := by
  simp only [append_url]
  split
  · exact h
  · split
    · simpa using h
    · simp

/-- Helper: appending a non-empty URL leaves a non-empty `urls` list. -/
theorem append_url_urls_ne_of_ne (r : Ref) (u src : String) (hu : u ≠ "") :
    (append_url r u src).urls.getD [] ≠ [] := by
  simp only [append_url]
  rw [if_neg hu]
  split
  · rename_i hmem
    intro hemp
    simp only [Option.getD_some] at hemp
    rw [hemp] at hmem
    cases hmem
  · simp

/-- Helper: folding URL appends preserves a non-empty `urls` list. -/
theorem foldl_append_url_ne (src : String) :
    ∀ (links : List String) (r : Ref), r.urls.getD [] ≠ [] →
      ((links.foldl (fun r2 u => append_url r2 u src) r).urls.getD []) ≠ []
  | [], _, h => h
  | u :: rest, r, h =>
      foldl_append_url_ne src rest (append_url r u src) (append_url_urls_ne r u src h)

/-- Helper: folding URL appends over a non-empty list of non-empty links makes
the `urls` list non-empty. -/
theorem foldl_append_url_ne_of_links (src : String) :
    ∀ (links : List String) (r : Ref), links ≠ [] → (∀ u ∈ links, u ≠ "") →
      ((links.foldl (fun r2 u => append_url r2 u src) r).urls.getD []) ≠ []
  | [], _, h, _ => absurd rfl h
  | u :: rest, r, _, hne =>
      foldl_append_url_ne src rest (append_url r u src)
        (append_url_urls_ne_of_ne r u src (hne u (List.mem_cons_self u rest)))

/-- Helper: every detail present after folding URL appends either was already
on the record or carries the source tag of the fold and one of the folded links. -/
theorem foldl_append_url_details (src : String) :
    ∀ (links : List String) (r : Ref),
      ∀ d ∈ ((links.foldl (fun r2 u => append_url r2 u src) r).url_details.getD []),
        d ∈ r.url_details.getD [] ∨ (d.source = src ∧ d.url ∈ links) := by
  intro links
  induction links with
  | nil => intro r d hd; exact Or.inl hd
  | cons u rest ih =>
      intro r d hd
      rw [List.foldl_cons] at hd
      rcases ih (append_url r u src) d hd with h | ⟨hsrc, hurl⟩
      · simp only [append_url] at h
        split at h
        · exact Or.inl h
        · split at h
          · exact Or.inl h
          · simp only [Option.getD_some] at h
            rcases List.mem_append.mp h with h2 | h2
            · exact Or.inl h2
            · have hd2 : d = ⟨u, src⟩ := by simpa using h2
              subst hd2
              exact Or.inr ⟨rfl, List.mem_cons_self u rest⟩
      · exact Or.inr ⟨hsrc, List.mem_cons_of_mem u hurl⟩

/-- Helper: when the record has no URLs and identifier extraction finds links,
`_process_reference` is exactly the strategy-1 fold of those links tagged
"research": the later strategies never run. -/
theorem process_reference_strategy1 (es : Bool) (keys : List String)
    (cr sp : Option String) (ref : Ref) (h1 : ref.urls.getD [] = [])
    (h2 : extract_arxiv_links ref.original_reference ≠ []) :
    process_reference es keys cr sp ref =
      (extract_arxiv_links ref.original_reference).foldl
        (fun r2 u => append_url r2 u ("research"))
        { ref with urls := some [], url_details := some (ref.url_details.getD []) } := by
  have hne := foldl_append_url_ne_of_links ("research")
    (extract_arxiv_links ref.original_reference)
    { ref with urls := some [], url_details := some (ref.url_details.getD []) }
    h2 (extract_arxiv_ne_empty _)
  have hb : (((extract_arxiv_links ref.original_reference).foldl
      (fun r2 u => append_url r2 u ("research"))
      { ref with urls := some [],
                 url_details := some (ref.url_details.getD []) }).urls.getD
        []).isEmpty = false := by
    rcases hcase : ((extract_arxiv_links ref.original_reference).foldl
        (fun r2 u => append_url r2 u ("research"))
        { ref with urls := some [],
                   url_details := some (ref.url_details.getD []) }).urls.getD []
      with _ | ⟨x, xs⟩
    · exact absurd hcase hne
    · rfl
  simp only [process_reference, h1]
  simp [hb]

/-- Claim C9, counterexample to the claim as stated: a strategy-1 URL is
appended with provenance tag "research", not the "research-identifier" the
claim announces. -/
theorem claim9_counterexample :
    ((process_reference true [] none none
        ⟨"arXiv:2301.00001", none, none⟩).url_details.getD []).map
      (fun d => d.source) = ["research"] ∧
    ((process_reference true [] none none
        ⟨"arXiv:2301.00001", none, none⟩).url_details.getD []).map
      (fun d => d.source) ≠ ["research-identifier"] :=
  ⟨by decide, by decide⟩

/-- Claim C9 (amended): a record text containing an embedded arXiv identifier
yields the canonical URL `https://arxiv.org/abs/2301.00001` (trailing
punctuation such as a final period is stripped), and every URL accepted by
strategy 1 is appended to the record tagged with the provenance tag
"research" (amendment: the tag string is "research", not
"research-identifier"). -/
theorem claim9_arxiv_strategy (es : Bool) (keys : List String)
    (cr sp : Option String) :
    extract_arxiv_links ("See arXiv:2301.00001 for details") =
      ["https://arxiv.org/abs/2301.00001"] ∧
    extract_arxiv_links ("Doe, J. (2023). Title. arXiv:2301.00001.") =
      ["https://arxiv.org/abs/2301.00001"] ∧
    process_reference es keys cr sp ⟨"Doe, J. arXiv:2301.00001.", none, none⟩ =
      ⟨"Doe, J. arXiv:2301.00001.", some ["https://arxiv.org/abs/2301.00001"],
        some [⟨"https://arxiv.org/abs/2301.00001", "research"⟩]⟩ ∧
    (∀ ref : Ref, ref.urls.getD [] = [] →
        extract_arxiv_links ref.original_reference ≠ [] →
        ∀ d ∈ (process_reference es keys cr sp ref).url_details.getD [],
          d ∈ ref.url_details.getD [] ∨
            (d.source = "research" ∧
              d.url ∈ extract_arxiv_links ref.original_reference)) := by
  refine ⟨by decide, by decide, ?_, ?_⟩
  · rw [process_reference_strategy1 es keys cr sp
      ⟨"Doe, J. arXiv:2301.00001.", none, none⟩ rfl (by decide)]
    decide
  · intro ref h1 h2 d hd
    rw [process_reference_strategy1 es keys cr sp ref h1 h2] at hd
    have hsub := foldl_append_url_details ("research")
      (extract_arxiv_links ref.original_reference) _ d hd
    simpa using hsub

/-- Witness for C9: the concrete record and appended detail discharging each
hypothesis. -/
theorem claim9_witness :
    process_reference true ["k"] (some ("c")) (some ("s"))
        ⟨"Doe, J. arXiv:2301.00001.", none, none⟩ =
      ⟨"Doe, J. arXiv:2301.00001.", some ["https://arxiv.org/abs/2301.00001"],
        some [⟨"https://arxiv.org/abs/2301.00001", "research"⟩]⟩ ∧
    (UrlDetail.mk ("https://arxiv.org/abs/2301.00001") "research" ∈
        (Ref.mk ("Doe, J. arXiv:2301.00001.") none none).url_details.getD [] ∨
      ((UrlDetail.mk ("https://arxiv.org/abs/2301.00001") "research").source =
          "research" ∧
        (UrlDetail.mk ("https://arxiv.org/abs/2301.00001") "research").url ∈
          extract_arxiv_links ("Doe, J. arXiv:2301.00001."))) :=
  ⟨(claim9_arxiv_strategy true ["k"] (some ("c")) (some ("s"))).2.2.1,
   (claim9_arxiv_strategy true ["k"] (some ("c")) (some ("s"))).2.2.2
      ⟨"Doe, J. arXiv:2301.00001.", none, none⟩ rfl (by decide)
      ⟨"https://arxiv.org/abs/2301.00001", "research"⟩ (by decide)⟩

end RefScanner
